import Mathlib

/-!
Verification of the ChatDev phase-orchestration core (`chatdev/chat_env.py`,
`chatdev/chat_chain.py`) against its natural-language specification.

The Python source is shallowly embedded: pure string manipulation becomes
executable Lean functions on `List Char` / `String`; stateful methods become
functions from an explicit state to a new state plus a trace of the external
side effects they perform; code that can raise returns the raised error as
data.  Scanning loops are implemented with an explicit fuel argument (the
fuel is always instantiated with the length of the scanned list, which is an
upper bound on the number of scanning steps), so that every definition is
computable by the kernel.
-/

/-! ## Python character and string primitives -/

/-- The six characters Python's `str.strip()` and the regex class `\s` treat
as whitespace (for ASCII text): space, tab, newline, carriage return,
vertical tab and form feed. -/
def isPySpace (c : Char) : Bool :=
  c == ' ' || c == '\t' || c == '\n' || c == '\r' || c == '\x0b' || c == '\x0c'

/-- ASCII case-folding of one character, as Python's `str.lower()` performs
on ASCII input. -/
def pyLowerChar (c : Char) : Char :=
  if 'A' ≤ c ∧ c ≤ 'Z' then Char.ofNat (c.toNat + 32) else c

/-- Python's `str.strip()` on a character list: remove leading and trailing
whitespace. -/
def pyStrip (s : List Char) : List Char :=
  ((s.dropWhile isPySpace).reverse.dropWhile isPySpace).reverse

/-- Does `p` occur as a prefix of `s`?  (Recurses on the pattern first, so
that an empty or exhausted pattern answers without inspecting the rest of
`s`.) -/
def isPrefixL : List Char → List Char → Bool
  | [], _ => true
  | a :: as, bs =>
    match bs with
    | [] => false
    | b :: bs' => a == b && isPrefixL as bs'

/-- Python's substring test `pat in s`: does `pat` occur contiguously in
`s`?  (Scans every suffix for `pat` as a prefix.) -/
def containsSub (pat : List Char) : List Char → Bool
  | [] => isPrefixL pat []
  | c :: cs => isPrefixL pat (c :: cs) || containsSub pat cs

/-- Python's `str.replace(pat, "")` for a non-empty `pat`: delete every
non-overlapping occurrence of `pat`, scanning left to right.  `fuel` bounds
the number of scanning steps; one character or one occurrence is consumed
per step. -/
def pyEraseAux (pat : List Char) : Nat → List Char → List Char
  | 0, s => s
  | fuel + 1, s =>
    match s with
    | [] => []
    | c :: cs =>
      if isPrefixL pat (c :: cs) && !pat.isEmpty then
        pyEraseAux pat fuel ((c :: cs).drop pat.length)
      else
        c :: pyEraseAux pat fuel cs

/-- Embeds `error_output.replace(directory + "/", "")` from `exist_bugs`, as a
total function on strings. -/
def pyErase (pat s : String) : String :=
  String.mk (pyEraseAux pat.data s.data.length s.data)

/-! ## `ChatEnv.fix_module_not_found_error` (chat_env.py lines 78-94)

```python
if "ModuleNotFoundError" in test_reports:
    for match in re.finditer(r"No module named '(\S+)'", test_reports, re.DOTALL):
        module = match.group(1)
        subprocess.Popen("pip install {...}".format(module), shell=True).wait()
        log_and_print_online(...)
```

The embedding returns the list of modules passed to `pip install`, in the
order the installs are attempted (one per regex match). -/

/-- The 17 characters of the literal regex part `No module named '`. -/
def NMN : List Char :=
  ['N', 'o', ' ', 'm', 'o', 'd', 'u', 'l', 'e', ' ', 'n', 'a', 'm', 'e', 'd', ' ', '\'']

/-- The prefix of `run` that ends just before the last `'` in `run`
(`none` when `run` has no `'`).  This is what the greedy, backtracking
group `(\S+)'` captures when matched against `run ++ <whitespace or end>`:
the group takes the longest non-whitespace stretch that is still followed
by a quote, i.e. everything before the last quote. -/
def toLastQuote : List Char → Option (List Char)
  | [] => none
  | c :: cs =>
    match toLastQuote cs with
    | some cap => some (c :: cap)
    | none => if c == '\'' then some [] else none

/-- One left-to-right scan of `re.finditer(r"No module named '(\S+)'", s)`,
returning the captured groups in match order.  At each position: if the
literal `No module named '` matches, the candidate capture is the maximal
non-whitespace run after it, cut at its last quote (greedy `(\S+)` followed
by `'`); a successful match consumes through its closing quote, a failed
one advances one character, exactly as the regex engine resumes scanning.
`fuel` bounds the number of steps; every step consumes at least one
character. -/
def findModulesAux : Nat → List Char → List (List Char)
  | 0, _ => []
  | fuel + 1, s =>
    if isPrefixL NMN s then
      let rest := s.drop 17
      let run := rest.takeWhile (fun c => !(isPySpace c))
      match toLastQuote run with
      | some cap =>
        if 1 ≤ cap.length then
          cap :: findModulesAux fuel (rest.drop (cap.length + 1))
        else
          match s with
          | [] => []
          | _ :: cs => findModulesAux fuel cs
      | none =>
        match s with
        | [] => []
        | _ :: cs => findModulesAux fuel cs
    else
      match s with
      | [] => []
      | _ :: cs => findModulesAux fuel cs

/-- All captures of `re.finditer(r"No module named '(\S+)'", s, re.DOTALL)`
in order (`re.DOTALL` only affects `.`, which the pattern does not use). -/
def findModules (s : List Char) : List (List Char) :=
  findModulesAux s.length s

/-- Embeds `ChatEnv.fix_module_not_found_error`: the list of modules it runs
`pip install` on, in order.  Nothing is installed unless the literal
`ModuleNotFoundError` occurs in the report; otherwise one install is
attempted per regex match. -/
def fix_module_not_found_error (test_reports : String) : List String :=
  if containsSub "ModuleNotFoundError".data test_reports.data then
    (findModules test_reports.data).map (fun cap => String.mk cap)
  else
    []

/-! ## `ChatChain.self_task_improve` (chat_chain.py lines 395-463)

The one line of output handling:

```python
revised_task_prompt = assistant_response.msg.content.split("<INFO>")[-1].lower().strip()
```

`split(sep)[-1]` is the text after the last non-overlapping occurrence of
`sep` in the left-to-right scan (the whole text when `sep` is absent). -/

/-- The six characters of the marker `<INFO>`. -/
def INFO : List Char := ['<', 'I', 'N', 'F', 'O', '>']

/-- The suffix of `s` that follows the first occurrence of `<INFO>`
(`none` when the marker does not occur). -/
def findInfo : List Char → Option (List Char)
  | [] => none
  | c :: cs =>
    if isPrefixL INFO (c :: cs) then some ((c :: cs).drop 6)
    else findInfo cs

/-- Embeds `s.split("<INFO>")[-1]`: repeatedly jump past the first occurrence of
the marker; since `<INFO>` cannot overlap itself, the final segment is the
text after the last occurrence.  `fuel` bounds the number of jumps; each
jump removes at least the six marker characters. -/
def splitLastInfoAux : Nat → List Char → List Char
  | 0, s => s
  | fuel + 1, s =>
    match findInfo s with
    | none => s
    | some r => splitLastInfoAux fuel r

/-- The text after the last `<INFO>` marker (the whole text when absent). -/
def splitLastInfo (s : List Char) : List Char :=
  splitLastInfoAux s.length s

/-- The output handling of `ChatChain.self_task_improve`:
`content.split("<INFO>")[-1].lower().strip()`. -/
def self_task_improve (content : String) : String :=
  String.mk (pyStrip ((splitLastInfo content.data).map pyLowerChar))

/-! ## `ChatEnv.exist_bugs` (chat_env.py lines 126-165)

```python
try:
    command = "cd {dir}; ls -l; python3 main.py;"
    process = subprocess.Popen(command, shell=True, preexec_fn=os.setsid,
                               stdout=subprocess.PIPE, stderr=subprocess.PIPE)
    time.sleep(3)
    return_code = process.returncode
    # Check if the software is still running
    if process.poll() is None:
        os.killpg(os.getpgid(process.pid), signal.SIGTERM)
    if return_code == 0:
        return False, success_info
    else:
        error_output = process.stderr.read().decode("utf-8")
        if error_output:
            if "Traceback".lower() in error_output.lower():
                errs = error_output.replace(directory + "/", "")
                return True, errs
        else:
            return False, success_info
except subprocess.CalledProcessError as e:
    return True, f"Error: {e}"
except Exception as ex:
    return True, f"An error occurred: {ex}"
return False, success_info
```

The child process and the exception behaviour of the `try` block are the
environment's input: whether the child has exited by the time the
three-second sleep ends (and with what code), what `stderr.read()` yields,
and whether the block raises.  A `subprocess.Popen` object's `returncode`
attribute is `None` from construction until a `poll()`/`wait()` observes
termination; the `Popen` model below carries that rule. -/

/-- An exception escaping the spawn/wait code, as caught by the two
`except` clauses. -/
inductive PyExc where
  | calledProcessError (text : String)
  | otherError (text : String)
deriving DecidableEq

/-- The text of the exception (what Python interpolates into the f-string). -/
def PyExc.text : PyExc → String
  | .calledProcessError t => t
  | .otherError t => t

/-- A `subprocess.Popen` handle: `returncode` is `None` until a
`poll()`/`wait()` call observes that the child has terminated. -/
structure Popen where
  returncode : Option Int
deriving DecidableEq

/-- Embeds `subprocess.Popen(...)`: a fresh handle; the constructor never sets
`returncode`. -/
def Popen.spawn : Popen := { returncode := none }

/-- Embeds `process.poll()`: `exited` is the ground truth at the moment of the
call (`none` = child still running, `some c` = child exited with code `c`).
Returns the updated handle and the poll result. -/
def Popen.poll (p : Popen) (exited : Option Int) : Popen × Option Int :=
  match exited with
  | none => (p, none)
  | some c => ({ returncode := some c }, some c)

/-- What the operating system presents to one `exist_bugs` invocation. -/
structure RunOutcome where
  /-- An exception raised inside the `try` block, if any (modelled as
  occurring at spawn time). -/
  spawnExc : Option PyExc
  /-- `poll()` ground truth after the 3-second sleep: `none` if the child
  is still running, `some c` if it has exited with code `c`. -/
  exitedBySleep : Option Int
  /-- What `process.stderr.read().decode("utf-8")` yields. -/
  stderrText : String
deriving DecidableEq

/-- The `(hasBug, message)` pair `exist_bugs` returns. -/
structure BugReport where
  hasBug : Bool
  message : String
deriving DecidableEq

/-- The success message constant of `exist_bugs`. -/
def success_info : String := "The software run successfully without errors."

/-- Embeds `ChatEnv.exist_bugs`, line by line.  The `Except` layer records whether
an exception escapes the method: every branch, including the two `except`
handlers, produces `Except.ok`. -/
def exist_bugs (directory : String) (o : RunOutcome) : Except PyExc BugReport :=
  match o.spawnExc with
  | some (.calledProcessError t) => .ok { hasBug := true, message := "Error: " ++ t }
  | some (.otherError t) => .ok { hasBug := true, message := "An error occurred: " ++ t }
  | none =>
    let process := Popen.spawn
    -- time.sleep(3); return_code = process.returncode  (no poll has happened yet)
    let return_code : Option Int := process.returncode
    -- if process.poll() is None: os.killpg(...)  (the kill is a side effect;
    -- the poll result and updated handle are not read again)
    let _polled := process.poll o.exitedBySleep
    if return_code = some 0 then
      .ok { hasBug := false, message := success_info }
    else
      let error_output := o.stderrText
      if error_output ≠ "" then
        if containsSub "traceback".data (error_output.data.map pyLowerChar) then
          .ok { hasBug := true, message := pyErase (directory ++ "/") error_output }
        else
          -- falls through both inner ifs to the final `return False, success_info`
          .ok { hasBug := false, message := success_info }
      else
        .ok { hasBug := false, message := success_info }

/-! ## `ChatEnv.set_directory` (chat_env.py lines 96-124)

```python
assert len(self.env_dict["directory"]) == 0
self.env_dict["directory"] = directory
self.codes.directory = directory
self.requirements.directory = directory
self.manuals.directory = directory
if os.path.exists(self.env_dict["directory"]) and len(os.listdir(directory)) > 0:
    new_directory = "{dir}.{timestamp}"
    shutil.copytree(directory, new_directory)
if self.config.clear_structure:
    if os.path.exists(self.env_dict["directory"]):
        shutil.rmtree(...); os.mkdir(...)
    else:
        os.mkdir(...)
```

The state is the directory bindings the method assigns; the filesystem is
an input (existence and non-emptiness of the target, plus the timestamp)
and the filesystem mutations are an output action list.  The Python
`assert` raises `AssertionError` before any assignment when the directory
is already bound, so a failing call returns the state unchanged with the
error recorded. -/

/-- The directory fields `set_directory` assigns. -/
structure ChatEnvSt where
  env_directory : String
  codes_directory : String
  requirements_directory : String
  manuals_directory : String
deriving DecidableEq

/-- What the filesystem reports to `set_directory`. -/
structure FsView where
  /-- `os.path.exists(directory)` -/
  exists_dir : Bool
  /-- `len(os.listdir(directory)) > 0` -/
  listdir_nonempty : Bool
  /-- `time.strftime("%Y%m%d%H%M%S", time.localtime())` -/
  timestamp : String
deriving DecidableEq

/-- A filesystem mutation performed by `set_directory`. -/
inductive FsAction where
  | copytree (src dst : String)
  | rmtree (d : String)
  | mkdir (d : String)
deriving DecidableEq

/-- Embeds `ChatEnv.set_directory`.  Returns the state after the call, the
filesystem actions performed, and the error raised (if any): the leading
`assert len(self.env_dict["directory"]) == 0` fires before any assignment,
so on a second binding the state is returned untouched with
`AssertionError`. -/
def set_directory (st : ChatEnvSt) (clear_structure : Bool) (fs : FsView)
    (directory : String) : ChatEnvSt × List FsAction × Option String :=
  if st.env_directory.length = 0 then
    let st' : ChatEnvSt :=
      { env_directory := directory
        codes_directory := directory
        requirements_directory := directory
        manuals_directory := directory }
    let backupActs :=
      if fs.exists_dir && fs.listdir_nonempty then
        [FsAction.copytree directory (directory ++ "." ++ fs.timestamp)]
      else []
    let clearActs :=
      if clear_structure then
        if fs.exists_dir then [FsAction.rmtree directory, FsAction.mkdir directory]
        else [FsAction.mkdir directory]
      else []
    (st', backupActs ++ clearActs, none)
  else
    (st, [], some "AssertionError")

/-! ## `ChatChain.execute_step` / `execute_chain` (chat_chain.py lines 143-231)

```python
phase = phase_item["phase"]
phase_type = phase_item["phaseType"]
if phase_type == "SimplePhase":
    max_turn_step = phase_item["max_turn_step"]
    need_reflect = check_bool(phase_item["need_reflect"])
    if phase in self.phases:
        self.chat_env = self.phases[phase].execute(
            self.chat_env,
            self.chat_turn_limit_default if max_turn_step <= 0 else max_turn_step,
            need_reflect)
    else:
        raise RuntimeError(f"Phase ... is not yet implemented in chatdev.phase")
elif phase_type == "ComposedPhase":
    cycle_num = phase_item["cycleNum"]
    composition = phase_item["Composition"]
    compose_phase_class = getattr(self.compose_phase_module, phase)
    ...
    self.chat_env = compose_phase_instance.execute(self.chat_env)
else:
    raise RuntimeError(f"PhaseType ... is not yet implemented.")

def execute_chain(self):
    for phase_item in self.chain:
        self.execute_step(phase_item)
```

The phase classes themselves live in `chatdev/phase.py` /
`chatdev/composed_phase.py`, outside the orchestration core; a phase's
`execute` is modelled as appending one execution event (carrying exactly
the arguments the orchestrator passes) to the shared environment.  A phase
name resolves when it is a key of `self.phases` (built from
`PhaseConfig.json`) respectively an attribute of `chatdev.composed_phase`;
`getattr` on a missing attribute raises `AttributeError` naming the
attribute, so the `if not compose_phase_class` guard in the source is
unreachable. -/

/-- A Python exception raised by `execute_step`. -/
inductive PyErr where
  | runtimeError (msg : String)
  | attributeError (msg : String)
deriving DecidableEq

/-- One entry of the `"chain"` list of `ChatChainConfig.json` (a JSON
object; the fields a branch does not read may hold anything). -/
structure PhaseItem where
  phase : String
  phaseType : String
  max_turn_step : Int
  need_reflect : Bool
  cycleNum : Int
  composition : List String
deriving DecidableEq

/-- The two phase registries of a `ChatChain`: the keys of `self.phases`
(one `SimplePhase` instance per entry of `PhaseConfig.json`) and the class
names defined by the `chatdev.composed_phase` module. -/
structure Registry where
  simplePhases : List String
  composedPhases : List String
deriving DecidableEq

/-- One phase execution, with the arguments the orchestrator passes. -/
inductive ExecEvent where
  | simpleExec (phase : String) (turnLimit : Int) (needReflect : Bool)
  | composedExec (phase : String) (cycleNum : Int) (composition : List String)
deriving DecidableEq

/-- The shared `self.chat_env`, abstracted to the trace of phase
executions (side effects) applied to it. -/
structure ChainEnv where
  events : List ExecEvent
deriving DecidableEq

/-- Embeds `self.chat_turn_limit_default`, set to 10 in `ChatChain.__init__` and
never reassigned. -/
def chat_turn_limit_default : Int := 10

/-- The message of the `RuntimeError` for an unresolved `SimplePhase`. -/
def simpleMissingMsg (phase : String) : String :=
  "Phase '" ++ phase ++ "' is not yet implemented in chatdev.phase"

/-- The message of the `AttributeError` that `getattr` raises for an
unresolved `ComposedPhase` name. -/
def composedMissingMsg (phase : String) : String :=
  "module 'chatdev.composed_phase' has no attribute '" ++ phase ++ "'"

/-- The message of the `RuntimeError` for an unrecognized `phaseType`. -/
def phaseTypeMsg (phase_type : String) : String :=
  "PhaseType '" ++ phase_type ++ "' is not yet implemented."

/-- Embeds `ChatChain.execute_step`: dispatch one chain entry.  On success the
environment grows by the one execution event of the dispatched phase; on a
resolution or configuration failure the raised error is returned and the
environment is untouched. -/
def execute_step (reg : Registry) (env : ChainEnv) (item : PhaseItem) :
    Except PyErr ChainEnv :=
  let phase := item.phase
  let phase_type := item.phaseType
  if phase_type = "SimplePhase" then
    let max_turn_step := item.max_turn_step
    let need_reflect := item.need_reflect
    if phase ∈ reg.simplePhases then
      .ok { events := env.events ++
              [ExecEvent.simpleExec phase
                (if max_turn_step ≤ 0 then chat_turn_limit_default else max_turn_step)
                need_reflect] }
    else
      .error (.runtimeError (simpleMissingMsg phase))
  else if phase_type = "ComposedPhase" then
    if phase ∈ reg.composedPhases then
      .ok { events := env.events ++
              [ExecEvent.composedExec phase item.cycleNum item.composition] }
    else
      .error (.attributeError (composedMissingMsg phase))
  else
    .error (.runtimeError (phaseTypeMsg phase_type))

/-- Embeds `ChatChain.execute_chain`: run the chain entries in order.  The loop
re-assigns `self.chat_env` after each successful step; an exception
propagates immediately, leaving the environment as the last successful
step produced it.  Returns that environment together with the propagated
error, if any. -/
def execute_chain (reg : Registry) (env : ChainEnv) :
    List PhaseItem → ChainEnv × Option PyErr
  | [] => (env, none)
  | item :: rest =>
    match execute_step reg env item with
    | .ok env' => execute_chain reg env' rest
    | .error e => (env, some e)

/-- Does `execute_step` resolve and execute this entry (rather than
raise)?  Mirrors the dispatch conditions of `execute_step`. -/
def stepOk (reg : Registry) (item : PhaseItem) : Bool :=
  if item.phaseType = "SimplePhase" then decide (item.phase ∈ reg.simplePhases)
  else if item.phaseType = "ComposedPhase" then decide (item.phase ∈ reg.composedPhases)
  else false

/-! ## `Roster` and recruitment (chat_env.py lines 167-174, chat_chain.py lines 126-141)

```python
def recruit(self, agent_name: str):
    self.roster._recruit(agent_name)

def make_recruitment(self):
    for employee in self.recruitments:
        self.chat_env.recruit(agent_name=employee)
```
-/

/-- The roster of recruited agent names. -/
structure Roster where
  agents : List String
deriving DecidableEq

/-- Modelled from the spec: `chatdev/roster.py` is not part of the given
source tree, only its caller `ChatEnv.recruit` is.  Per the spec, the
roster "supports idempotent recruitment": recruiting an already-present
name is a no-op with a fail-soft "already exists" notice, not an error;
a new name is added to the set of participant names. -/
def Roster._recruit (r : Roster) (agent_name : String) : Roster :=
  if agent_name ∈ r.agents then r else { agents := r.agents ++ [agent_name] }

/-- Embeds `ChatEnv.recruit`: delegates to the roster. -/
def recruit (r : Roster) (agent_name : String) : Roster :=
  r._recruit agent_name

/-- Embeds `ChatChain.make_recruitment`: recruit every configured participant in
order. -/
def make_recruitment (recruitments : List String) (r : Roster) : Roster :=
  recruitments.foldl (fun env employee => recruit env employee) r

/-! ## Derived definitions used by the theorems -/

/-- The execution event `execute_step` appends for a resolvable entry. -/
def stepEvent (item : PhaseItem) : ExecEvent :=
  if item.phaseType = "SimplePhase" then
    .simpleExec item.phase
      (if item.max_turn_step ≤ 0 then chat_turn_limit_default else item.max_turn_step)
      item.need_reflect
  else
    .composedExec item.phase item.cycleNum item.composition

/-- The classification the spec's claim says is computed from the captured
standard-error text alone: non-empty stderr containing the (lowercased)
traceback marker is a bug, with the project directory path stripped from
the message; everything else is the success report. -/
def stderrOnlyClassification (directory stderrText : String) : BugReport :=
  if stderrText ≠ "" then
    if containsSub "traceback".data (stderrText.data.map pyLowerChar) then
      { hasBug := true, message := pyErase (directory ++ "/") stderrText }
    else
      { hasBug := false, message := success_info }
  else
    { hasBug := false, message := success_info }

/-- A report text consisting of one `No module named '<m>'` line per listed
module, each on its own line. -/
def mentionBlock : List String → List Char
  | [] => []
  | m :: rest => '\n' :: (NMN ++ (m.data ++ ('\'' :: mentionBlock rest)))

/-- A module name the regex `(\S+)` can capture verbatim: non-empty, no
whitespace, no quote character. -/
def goodModule (m : String) : Prop :=
  m.data ≠ [] ∧ ∀ c ∈ m.data, isPySpace c = false ∧ c ≠ '\''

instance (m : String) : Decidable (goodModule m) := by
  unfold goodModule
  infer_instance

/-! ## General helper lemmas -/

theorem string_eq_empty_of_length_zero {s : String} (h : s.length = 0) : s = "" := by
  cases s with
  | mk data =>
    cases data with
    | nil => rfl
    | cons c cs => simp [String.length] at h

theorem exist_bugs_none_eq (d : String) (exited : Option Int) (stderr : String) :
    exist_bugs d { spawnExc := none, exitedBySleep := exited, stderrText := stderr } =
      .ok (stderrOnlyClassification d stderr) := by
  have hL : exist_bugs d ⟨none, exited, stderr⟩ =
      if stderr ≠ "" then
        if containsSub "traceback".data (stderr.data.map pyLowerChar) then
          Except.ok { hasBug := true, message := pyErase (d ++ "/") stderr }
        else Except.ok { hasBug := false, message := success_info }
      else Except.ok { hasBug := false, message := success_info } := rfl
  rw [hL]
  unfold stderrOnlyClassification
  split
  · split <;> rfl
  · rfl

/-! ## C5: directory binding is set-once -/

/-- C5: on an environment whose directory is already bound (non-empty), a
second `set_directory` call fails with the emptiness assertion
(`AssertionError`), performs no filesystem action, and leaves every
directory field unchanged. -/
theorem set_directory_set_once (st : ChatEnvSt) (clear_structure : Bool)
    (fs : FsView) (d : String) (h : st.env_directory ≠ "") :
    set_directory st clear_structure fs d = (st, [], some "AssertionError") := by
  unfold set_directory
  rw [if_neg]
  intro hlen
  exact h (string_eq_empty_of_length_zero hlen)

theorem set_directory_set_once_witness :
    set_directory ⟨"/old", "/old", "/old", "/old"⟩ true ⟨true, true, "20240101"⟩ "/new" =
      (⟨"/old", "/old", "/old", "/old"⟩, [], some "AssertionError") :=
  set_directory_set_once ⟨"/old", "/old", "/old", "/old"⟩ true ⟨true, true, "20240101"⟩ "/new"
    (by decide)

/-! ## C4: exceptions in `exist_bugs` are converted, never propagated -/

/-- C4: `exist_bugs` never lets an exception escape: every outcome,
including one where the `try` block raises, produces a returned result;
and when an exception is raised the result reports a bug whose message
contains the exception text. -/
theorem exist_bugs_catches_exceptions (d : String) (o : RunOutcome) :
    (∃ r, exist_bugs d o = .ok r) ∧
    (∀ e, o.spawnExc = some e →
      ∃ r, exist_bugs d o = .ok r ∧ r.hasBug = true ∧ ∃ pre, r.message = pre ++ e.text) := by
  obtain ⟨exc, exited, stderr⟩ := o
  cases exc with
  | some e =>
    cases e with
    | calledProcessError t =>
      refine ⟨⟨⟨true, "Error: " ++ t⟩, rfl⟩, ?_⟩
      intro e' he'
      cases he'
      exact ⟨⟨true, "Error: " ++ t⟩, rfl, rfl, "Error: ", rfl⟩
    | otherError t =>
      refine ⟨⟨⟨true, "An error occurred: " ++ t⟩, rfl⟩, ?_⟩
      intro e' he'
      cases he'
      exact ⟨⟨true, "An error occurred: " ++ t⟩, rfl, rfl, "An error occurred: ", rfl⟩
  | none =>
    refine ⟨⟨stderrOnlyClassification d stderr, exist_bugs_none_eq d exited stderr⟩, ?_⟩
    intro e' he'
    exact Option.noConfusion he'

theorem exist_bugs_catches_exceptions_witness :
    (∃ r, exist_bugs "/prj"
        { spawnExc := some (.otherError "boom"), exitedBySleep := none, stderrText := "" } = .ok r) ∧
    (∃ r, exist_bugs "/prj"
        { spawnExc := some (.otherError "boom"), exitedBySleep := none, stderrText := "" } = .ok r ∧
      r.hasBug = true ∧ ∃ pre, r.message = pre ++ (PyExc.otherError "boom").text) :=
  ⟨(exist_bugs_catches_exceptions "/prj"
      { spawnExc := some (.otherError "boom"), exitedBySleep := none, stderrText := "" }).1,
   (exist_bugs_catches_exceptions "/prj"
      { spawnExc := some (.otherError "boom"), exitedBySleep := none, stderrText := "" }).2
     (PyExc.otherError "boom") rfl⟩

/-! ## C10: the classification never depends on the exit code -/

/-- C10: in any invocation whose spawn succeeds, `return_code` is read
from `process.returncode` before the process is ever polled, so it is
`None` and the `return_code == 0` branch cannot fire: the returned
classification is a function of the captured stderr text (and the
directory used to strip paths) alone, independent of how and whether the
child exited. -/
theorem exist_bugs_ignores_exit_status (d : String) (o : RunOutcome)
    (h : o.spawnExc = none) :
    exist_bugs d o = .ok (stderrOnlyClassification d o.stderrText) := by
  obtain ⟨exc, exited, stderr⟩ := o
  cases h
  exact exist_bugs_none_eq d exited stderr

theorem exist_bugs_ignores_exit_status_witness :
    exist_bugs "/prj" { spawnExc := none, exitedBySleep := some 7, stderrText := "oops" } =
      .ok (stderrOnlyClassification "/prj" "oops") :=
  exist_bugs_ignores_exit_status "/prj"
    { spawnExc := none, exitedBySleep := some 7, stderrText := "oops" } rfl

/-! ## C3: the intended exit-code classification is broken (code bug) -/

/-- C3: the failing input for the claimed classification.  A child that
has already exited with code zero but produced traceback text on stderr
should, per the claim, yield `(hasBug = false, success message)`; the code
reads `process.returncode` before any `poll()`, so the zero exit code is
never seen and the result is `(hasBug = true, stderr text)`. -/
theorem exist_bugs_zero_exit_misclassified :
    exist_bugs "/prj"
        { spawnExc := none, exitedBySleep := some 0,
          stderrText := "Traceback (most recent call last): boom" } =
      .ok { hasBug := true, message := "Traceback (most recent call last): boom" } := by
  rfl

/-! ## C8: recruitment is idempotent and complete -/

theorem mem_recruit_self (r : Roster) (n : String) : n ∈ (recruit r n).agents := by
  unfold recruit Roster._recruit
  by_cases h : n ∈ r.agents
  · simp [h]
  · simp [h]

theorem recruit_of_mem (r : Roster) (n : String) (h : n ∈ r.agents) :
    recruit r n = r := by
  unfold recruit Roster._recruit
  simp [h]

theorem mem_recruit_of_mem (r : Roster) (n m : String) (h : m ∈ r.agents) :
    m ∈ (recruit r n).agents := by
  unfold recruit Roster._recruit
  by_cases hn : n ∈ r.agents
  · simpa [hn]
  · simp [hn]
    exact Or.inl h

theorem mem_make_recruitment_of_mem (recs : List String) (r : Roster) (m : String)
    (h : m ∈ r.agents) : m ∈ (make_recruitment recs r).agents := by
  induction recs generalizing r with
  | nil => exact h
  | cons e rest ih => exact ih (recruit r e) (mem_recruit_of_mem r e m h)

/-- C8: recruiting the same participant name twice leaves the roster size
unchanged after the second call (and, the functions being total,
raises nothing), and `make_recruitment` puts every configured participant
name on the roster. -/
theorem recruit_idempotent_and_complete (r : Roster) (n : String) (recs : List String) :
    (recruit (recruit r n) n).agents.length = (recruit r n).agents.length ∧
    (∀ m, m ∈ recs → m ∈ (make_recruitment recs r).agents) := by
  constructor
  · rw [recruit_of_mem (recruit r n) n (mem_recruit_self r n)]
  · intro m hm
    induction recs generalizing r with
    | nil => cases hm
    | cons e rest ih =>
      cases hm with
      | head =>
        exact mem_make_recruitment_of_mem rest (recruit r m) m (mem_recruit_self r m)
      | tail _ hrest =>
        exact ih (recruit r e) hrest

theorem recruit_idempotent_and_complete_witness :
    (recruit (recruit { agents := [] } "CEO") "CEO").agents.length =
      (recruit { agents := [] } "CEO").agents.length ∧
    "CTO" ∈ (make_recruitment ["CTO", "CEO"] { agents := [] }).agents :=
  ⟨(recruit_idempotent_and_complete { agents := [] } "CEO" ["CTO", "CEO"]).1,
   (recruit_idempotent_and_complete { agents := [] } "CEO" ["CTO", "CEO"]).2 "CTO"
     (by decide)⟩

/-! ## C6: the turn bound passed to a simple phase -/

/-- C6: for a resolvable `SimplePhase` entry, `execute_step` passes the
phase's `execute` exactly one turn bound: the configured `max_turn_step`
when it is positive, and the default `chat_turn_limit_default = 10` when
the configured value is `≤ 0`. -/
theorem execute_step_turn_bound (reg : Registry) (env : ChainEnv) (item : PhaseItem)
    (hT : item.phaseType = "SimplePhase") (hP : item.phase ∈ reg.simplePhases) :
    execute_step reg env item =
      .ok { events := env.events ++
        [ExecEvent.simpleExec item.phase
          (if item.max_turn_step ≤ 0 then chat_turn_limit_default else item.max_turn_step)
          item.need_reflect] } ∧
    chat_turn_limit_default = 10 ∧
    (0 < item.max_turn_step →
      (if item.max_turn_step ≤ 0 then chat_turn_limit_default else item.max_turn_step) =
        item.max_turn_step) ∧
    (item.max_turn_step ≤ 0 →
      (if item.max_turn_step ≤ 0 then chat_turn_limit_default else item.max_turn_step) = 10) := by
  refine ⟨?_, rfl, ?_, ?_⟩
  · unfold execute_step
    rw [if_pos hT, if_pos hP]
  · intro hpos
    rw [if_neg (by omega)]
  · intro hle
    rw [if_pos hle]
    rfl

theorem execute_step_turn_bound_witness :
    execute_step { simplePhases := ["Demand"], composedPhases := [] } { events := [] }
        { phase := "Demand", phaseType := "SimplePhase", max_turn_step := 0,
          need_reflect := false, cycleNum := 0, composition := [] } =
      .ok { events := [ExecEvent.simpleExec "Demand" 10 false] } :=
  ((execute_step_turn_bound { simplePhases := ["Demand"], composedPhases := [] }
      { events := [] }
      { phase := "Demand", phaseType := "SimplePhase", max_turn_step := 0,
        need_reflect := false, cycleNum := 0, composition := [] }
      rfl (by decide)).1).trans (by rfl)

/-! ## C7: unresolved names and unknown phase types fail fast, distinctly -/

/-- C7: an unresolvable phase name makes `execute_step` raise a resolution
error whose message embeds the offending phase name (a `RuntimeError` for
a `SimplePhase` lookup, the `AttributeError` of `getattr` for a
`ComposedPhase` lookup), an unrecognized `phaseType` raises its own
configuration `RuntimeError`, and the three errors are pairwise distinct
as raised exception values, for all phase names and phase types. -/
theorem execute_step_failfast_distinct (reg : Registry) (env : ChainEnv)
    (item : PhaseItem) (p q t : String) :
    (item.phaseType = "SimplePhase" → item.phase ∉ reg.simplePhases →
      execute_step reg env item = .error (.runtimeError (simpleMissingMsg item.phase))) ∧
    (item.phaseType = "ComposedPhase" → item.phase ∉ reg.composedPhases →
      execute_step reg env item = .error (.attributeError (composedMissingMsg item.phase))) ∧
    (item.phaseType ≠ "SimplePhase" → item.phaseType ≠ "ComposedPhase" →
      execute_step reg env item = .error (.runtimeError (phaseTypeMsg item.phaseType))) ∧
    simpleMissingMsg p = "Phase '" ++ (p ++ "' is not yet implemented in chatdev.phase") ∧
    composedMissingMsg p =
      "module 'chatdev.composed_phase' has no attribute '" ++ (p ++ "'") ∧
    PyErr.runtimeError (simpleMissingMsg p) ≠ PyErr.attributeError (composedMissingMsg q) ∧
    PyErr.attributeError (composedMissingMsg q) ≠ PyErr.runtimeError (phaseTypeMsg t) ∧
    PyErr.runtimeError (simpleMissingMsg p) ≠ PyErr.runtimeError (phaseTypeMsg t) := by
  refine ⟨?_, ?_, ?_, ?_, ?_, ?_, ?_, ?_⟩
  · intro h1 h2
    unfold execute_step
    rw [if_pos h1, if_neg h2]
  · intro h1 h2
    unfold execute_step
    rw [if_neg (by rw [h1]; decide), if_pos h1, if_neg h2]
  · intro h1 h2
    unfold execute_step
    rw [if_neg h1, if_neg h2]
  · exact String.append_assoc "Phase '" p "' is not yet implemented in chatdev.phase"
  · exact String.append_assoc "module 'chatdev.composed_phase' has no attribute '" p "'"
  · exact fun h => PyErr.noConfusion h
  · exact fun h => PyErr.noConfusion h
  · intro h
    injection h with hm
    cases p with | mk pl =>
    cases t with | mk tl =>
    have h5 : (' ' : Char) = 'T' :=
      congrArg (fun s : String => s.data.getD 5 'z') hm
    exact absurd h5 (by decide)

theorem execute_step_failfast_distinct_witness :
    execute_step { simplePhases := ["Demand"], composedPhases := ["Cycle"] } { events := [] }
        { phase := "Ghost", phaseType := "SimplePhase", max_turn_step := 1,
          need_reflect := false, cycleNum := 0, composition := [] } =
      .error (.runtimeError (simpleMissingMsg "Ghost")) ∧
    execute_step { simplePhases := ["Demand"], composedPhases := ["Cycle"] } { events := [] }
        { phase := "Ghost", phaseType := "ComposedPhase", max_turn_step := 1,
          need_reflect := false, cycleNum := 2, composition := ["A"] } =
      .error (.attributeError (composedMissingMsg "Ghost")) ∧
    execute_step { simplePhases := ["Demand"], composedPhases := ["Cycle"] } { events := [] }
        { phase := "Demand", phaseType := "WeirdPhase", max_turn_step := 1,
          need_reflect := false, cycleNum := 0, composition := [] } =
      .error (.runtimeError (phaseTypeMsg "WeirdPhase")) :=
  ⟨(execute_step_failfast_distinct { simplePhases := ["Demand"], composedPhases := ["Cycle"] }
      { events := [] }
      { phase := "Ghost", phaseType := "SimplePhase", max_turn_step := 1,
        need_reflect := false, cycleNum := 0, composition := [] } "p" "q" "t").1
      rfl (by decide),
   (execute_step_failfast_distinct { simplePhases := ["Demand"], composedPhases := ["Cycle"] }
      { events := [] }
      { phase := "Ghost", phaseType := "ComposedPhase", max_turn_step := 1,
        need_reflect := false, cycleNum := 2, composition := ["A"] } "p" "q" "t").2.1
      rfl (by decide),
   (execute_step_failfast_distinct { simplePhases := ["Demand"], composedPhases := ["Cycle"] }
      { events := [] }
      { phase := "Demand", phaseType := "WeirdPhase", max_turn_step := 1,
        need_reflect := false, cycleNum := 0, composition := [] } "p" "q" "t").2.2.1
      (by decide) (by decide)⟩

/-! ## C2: validation is per-step, not static -/

theorem execute_step_of_stepOk (reg : Registry) (env : ChainEnv) (item : PhaseItem)
    (h : stepOk reg item = true) :
    execute_step reg env item = .ok { events := env.events ++ [stepEvent item] } := by
  unfold stepOk at h
  by_cases h1 : item.phaseType = "SimplePhase"
  · rw [if_pos h1] at h
    have hm := of_decide_eq_true h
    unfold execute_step stepEvent
    simp [h1, hm]
  · rw [if_neg h1] at h
    by_cases h2 : item.phaseType = "ComposedPhase"
    · rw [if_pos h2] at h
      have hm := of_decide_eq_true h
      unfold execute_step stepEvent
      simp [h1, h2, hm]
    · rw [if_neg h2] at h
      exact absurd h (by decide)

theorem execute_step_of_not_stepOk (reg : Registry) (env : ChainEnv) (item : PhaseItem)
    (h : stepOk reg item = false) :
    ∃ e, execute_step reg env item = .error e := by
  unfold stepOk at h
  unfold execute_step
  by_cases h1 : item.phaseType = "SimplePhase"
  · rw [if_pos h1] at h
    have hm := of_decide_eq_false h
    exact ⟨.runtimeError (simpleMissingMsg item.phase), by simp [h1, hm]⟩
  · rw [if_neg h1] at h
    by_cases h2 : item.phaseType = "ComposedPhase"
    · rw [if_pos h2] at h
      have hm := of_decide_eq_false h
      exact ⟨.attributeError (composedMissingMsg item.phase), by simp [h1, h2, hm]⟩
    · exact ⟨.runtimeError (phaseTypeMsg item.phaseType), by simp [h1, h2]⟩

/-- C2 (amended): when every entry before position N resolves and the
entry at position N does not, executing the chain performs the side
effects of every phase before N (one execution event per entry, in
order), then stops at position N with the resolution error; nothing after
position N runs.  In particular the side effects of phases 1..N-1 do
occur: name resolution happens per step at dispatch time, not statically
before the chain starts. -/
theorem execute_chain_runs_prefix_then_stops (reg : Registry) (env : ChainEnv)
    (pre : List PhaseItem) (item : PhaseItem) (post : List PhaseItem)
    (hpre : ∀ it ∈ pre, stepOk reg it = true) (hbad : stepOk reg item = false) :
    ∃ e, execute_chain reg env (pre ++ item :: post) =
        ((execute_chain reg env pre).1, some e) ∧
      (execute_chain reg env pre).2 = none ∧
      (execute_chain reg env pre).1.events = env.events ++ pre.map stepEvent := by
  induction pre generalizing env with
  | nil =>
    obtain ⟨e, he⟩ := execute_step_of_not_stepOk reg env item hbad
    refine ⟨e, ?_, rfl, by simp [execute_chain]⟩
    simp [execute_chain, he]
  | cons it rest ih =>
    have hstep := execute_step_of_stepOk reg env it (hpre it (by simp))
    have hrest : ∀ x ∈ rest, stepOk reg x = true := fun x hx => hpre x (by simp [hx])
    obtain ⟨e, h1, h2, h3⟩ := ih { events := env.events ++ [stepEvent it] } hrest
    refine ⟨e, ?_, ?_, ?_⟩
    · simpa [execute_chain, hstep] using h1
    · simpa [execute_chain, hstep] using h2
    · simpa [execute_chain, hstep, List.append_assoc] using h3

/-- C2 (counterexample): a two-entry chain whose second entry names an
unresolvable phase.  The claim demands that such a chain produce no side
effects from the phases before the bad position; in fact the first phase
executes and its side effect is present when the run stops. -/
theorem execute_chain_side_effects_before_bad_name :
    stepOk { simplePhases := ["Draft"], composedPhases := [] }
        { phase := "Ghost", phaseType := "SimplePhase", max_turn_step := -1,
          need_reflect := false, cycleNum := 0, composition := [] } = false ∧
    (execute_chain { simplePhases := ["Draft"], composedPhases := [] } { events := [] }
        [{ phase := "Draft", phaseType := "SimplePhase", max_turn_step := -1,
           need_reflect := false, cycleNum := 0, composition := [] },
         { phase := "Ghost", phaseType := "SimplePhase", max_turn_step := -1,
           need_reflect := false, cycleNum := 0, composition := [] }]).1.events ≠ [] := by
  constructor
  · decide
  · intro h
    exact absurd (congrArg List.length h) (by decide)

theorem execute_chain_runs_prefix_then_stops_witness :
    ∃ e, execute_chain { simplePhases := ["Draft"], composedPhases := [] } { events := [] }
        ([{ phase := "Draft", phaseType := "SimplePhase", max_turn_step := -1,
            need_reflect := false, cycleNum := 0, composition := [] }] ++
         { phase := "Ghost", phaseType := "SimplePhase", max_turn_step := -1,
           need_reflect := false, cycleNum := 0, composition := [] } :: []) =
        ((execute_chain { simplePhases := ["Draft"], composedPhases := [] } { events := [] }
          [{ phase := "Draft", phaseType := "SimplePhase", max_turn_step := -1,
             need_reflect := false, cycleNum := 0, composition := [] }]).1, some e) ∧
      (execute_chain { simplePhases := ["Draft"], composedPhases := [] } { events := [] }
          [{ phase := "Draft", phaseType := "SimplePhase", max_turn_step := -1,
             need_reflect := false, cycleNum := 0, composition := [] }]).2 = none ∧
      (execute_chain { simplePhases := ["Draft"], composedPhases := [] } { events := [] }
          [{ phase := "Draft", phaseType := "SimplePhase", max_turn_step := -1,
             need_reflect := false, cycleNum := 0, composition := [] }]).1.events =
        ([] : List ExecEvent) ++
          [{ phase := "Draft", phaseType := "SimplePhase", max_turn_step := -1,
             need_reflect := false, cycleNum := 0, composition := [] }].map stepEvent :=
  execute_chain_runs_prefix_then_stops { simplePhases := ["Draft"], composedPhases := [] }
    { events := [] }
    [{ phase := "Draft", phaseType := "SimplePhase", max_turn_step := -1,
       need_reflect := false, cycleNum := 0, composition := [] }]
    { phase := "Ghost", phaseType := "SimplePhase", max_turn_step := -1,
      need_reflect := false, cycleNum := 0, composition := [] }
    [] (by decide) (by decide)

/-! ## C9: the revised prompt is taken after the last marker, lowercased, stripped -/

theorem findInfo_length : ∀ {s r : List Char}, findInfo s = some r → r.length < s.length := by
  intro s
  induction s with
  | nil => intro r h; cases h
  | cons c cs ih =>
    intro r h
    simp only [findInfo] at h
    by_cases hp : isPrefixL INFO (c :: cs) = true
    · rw [if_pos hp] at h
      injection h with h'
      subst h'
      simp only [List.length_drop, List.length_cons]
      omega
    · rw [if_neg hp] at h
      exact Nat.lt_trans (ih h) (by simp)

theorem splitLastInfoAux_congr : ∀ (f₁ f₂ : Nat) (s : List Char),
    s.length ≤ f₁ → s.length ≤ f₂ → splitLastInfoAux f₁ s = splitLastInfoAux f₂ s := by
  intro f₁
  induction f₁ with
  | zero =>
    intro f₂ s h₁ _
    have hs : s = [] := List.length_eq_zero.mp (Nat.le_zero.mp h₁)
    subst hs
    cases f₂ with
    | zero => rfl
    | succ f => simp [splitLastInfoAux, findInfo]
  | succ f ih =>
    intro f₂ s h₁ h₂
    cases f₂ with
    | zero =>
      have hs : s = [] := List.length_eq_zero.mp (Nat.le_zero.mp h₂)
      subst hs
      simp [splitLastInfoAux, findInfo]
    | succ f₂' =>
      simp only [splitLastInfoAux]
      cases hf : findInfo s with
      | none => rfl
      | some r =>
        have hr := findInfo_length hf
        exact ih f₂' r (by omega) (by omega)

theorem splitLastInfo_unfold (s : List Char) :
    splitLastInfo s =
      match findInfo s with
      | none => s
      | some r => splitLastInfo r := by
  cases hf : findInfo s with
  | none =>
    unfold splitLastInfo
    cases hl : s.length with
    | zero => rfl
    | succ n => simp only [splitLastInfoAux, hf]
  | some r =>
    have hr := findInfo_length hf
    unfold splitLastInfo
    cases hl : s.length with
    | zero => omega
    | succ n =>
      simp only [splitLastInfoAux, hf]
      exact splitLastInfoAux_congr n r.length r (by omega) (Nat.le_refl _)

theorem findInfo_here (post : List Char) : findInfo (INFO ++ post) = some post := rfl

theorem findInfo_append_split : ∀ (pre post : List Char) {r : List Char},
    findInfo (pre ++ (INFO ++ post)) = some r →
    r = post ∨ ∃ pre', r = pre' ++ (INFO ++ post) ∧ pre'.length < pre.length := by
  intro pre
  induction pre with
  | nil =>
    intro post r h
    rw [List.nil_append, findInfo_here] at h
    injection h with h'
    exact Or.inl h'.symm
  | cons c cs ih =>
    intro post r h
    rw [List.cons_append] at h
    simp only [findInfo] at h
    by_cases hp : isPrefixL INFO (c :: (cs ++ (INFO ++ post))) = true
    · rw [if_pos hp] at h
      injection h with h'
      by_cases hlen : 5 ≤ cs.length
      · right
        refine ⟨(c :: cs).drop 6, ?_, ?_⟩
        · rw [← h', ← List.cons_append, List.drop_append_eq_append_drop]
          rw [show 6 - (c :: cs).length = 0 by simp only [List.length_cons]; omega,
              List.drop_zero]
        · simp only [List.length_drop, List.length_cons]
          omega
      · exfalso
        rcases cs with _ | ⟨a1, _ | ⟨a2, _ | ⟨a3, _ | ⟨a4, _ | ⟨a5, cs'⟩⟩⟩⟩⟩
        · simp only [INFO, List.cons_append, List.nil_append, isPrefixL] at hp
          simp at hp
        · simp only [INFO, List.cons_append, List.nil_append, isPrefixL] at hp
          simp at hp
        · simp only [INFO, List.cons_append, List.nil_append, isPrefixL] at hp
          simp at hp
        · simp only [INFO, List.cons_append, List.nil_append, isPrefixL] at hp
          simp at hp
        · simp only [INFO, List.cons_append, List.nil_append, isPrefixL] at hp
          simp at hp
        · exact hlen (by simp only [List.length_cons]; omega)
    · rw [if_neg hp] at h
      rcases ih post h with h1 | ⟨pre', hr, hl⟩
      · exact Or.inl h1
      · exact Or.inr ⟨pre', hr, by simp only [List.length_cons]; omega⟩

theorem findInfo_append_isSome : ∀ (pre post : List Char),
    (findInfo (pre ++ (INFO ++ post))).isSome = true := by
  intro pre
  induction pre with
  | nil =>
    intro post
    rw [List.nil_append, findInfo_here]
    rfl
  | cons c cs ih =>
    intro post
    rw [List.cons_append]
    simp only [findInfo]
    by_cases hp : isPrefixL INFO (c :: (cs ++ (INFO ++ post))) = true
    · rw [if_pos hp]
      rfl
    · rw [if_neg hp]
      exact ih post

theorem splitLastInfo_no_marker (s : List Char) (h : findInfo s = none) :
    splitLastInfo s = s := by
  rw [splitLastInfo_unfold, h]

theorem splitLastInfo_append_aux (post : List Char) (hpost : findInfo post = none) :
    ∀ (n : Nat) (pre : List Char), pre.length ≤ n →
      splitLastInfo (pre ++ (INFO ++ post)) = post := by
  intro n
  induction n with
  | zero =>
    intro pre hlen
    have hpre : pre = [] := List.length_eq_zero.mp (Nat.le_zero.mp hlen)
    subst hpre
    rw [List.nil_append, splitLastInfo_unfold, findInfo_here]
    show splitLastInfo post = post
    exact splitLastInfo_no_marker post hpost
  | succ n ih =>
    intro pre hlen
    rw [splitLastInfo_unfold]
    cases hf : findInfo (pre ++ (INFO ++ post)) with
    | none =>
      exfalso
      have hsome := findInfo_append_isSome pre post
      rw [hf] at hsome
      cases hsome
    | some r =>
      show splitLastInfo r = post
      rcases findInfo_append_split pre post hf with h1 | ⟨pre', hr, hl⟩
      · rw [h1]
        exact splitLastInfo_no_marker post hpost
      · subst hr
        exact ih pre' (by omega)

theorem splitLastInfo_append (pre post : List Char) (hpost : findInfo post = none) :
    splitLastInfo (pre ++ (INFO ++ post)) = post :=
  splitLastInfo_append_aux post hpost pre.length pre (Nat.le_refl _)

/-- C9 (amended): `self_task_improve` takes everything after the last
occurrence of the literal marker `<INFO>` in the assistant response —
the whole response when the marker is absent, with no error either way —
and returns it lowercased and stripped of surrounding whitespace, not
verbatim. -/
theorem self_task_improve_after_last_marker (content pre post : String) :
    (findInfo content.data = none →
      self_task_improve content = String.mk (pyStrip (content.data.map pyLowerChar))) ∧
    (findInfo post.data = none →
      self_task_improve (pre ++ "<INFO>" ++ post) =
        String.mk (pyStrip (post.data.map pyLowerChar))) := by
  constructor
  · intro h
    unfold self_task_improve
    rw [splitLastInfo_no_marker content.data h]
  · intro h
    unfold self_task_improve
    have hd : (pre ++ "<INFO>" ++ post).data = pre.data ++ (INFO ++ post.data) := by
      rw [String.data_append, String.data_append, List.append_assoc]
      rfl
    rw [hd, splitLastInfo_append pre.data post.data h]

theorem self_task_improve_after_last_marker_witness :
    self_task_improve "Request" = String.mk (pyStrip ("Request".data.map pyLowerChar)) ∧
    self_task_improve ("x" ++ "<INFO>" ++ " Y") =
      String.mk (pyStrip ((" Y" : String).data.map pyLowerChar)) :=
  ⟨(self_task_improve_after_last_marker "Request" "x" " Y").1 (by decide),
   (self_task_improve_after_last_marker "Request" "x" " Y").2 (by decide)⟩

/-- C9 (counterexample): for the response `"<INFO> A"`, everything after
the marker is `" A"`, but `self_task_improve` returns `"a"`: the text is
lowercased and whitespace-stripped, not returned exactly. -/
theorem self_task_improve_not_verbatim :
    self_task_improve "<INFO> A" = "a" ∧ ("a" : String) ≠ " A" := by
  constructor
  · decide
  · decide

/-! ## C1: one install per regex match occurrence -/

theorem isPrefixL_self_append : ∀ (p l : List Char), isPrefixL p (p ++ l) = true := by
  intro p
  induction p with
  | nil => intro l; rfl
  | cons a as ih =>
    intro l
    rw [List.cons_append]
    simp only [isPrefixL]
    rw [beq_self_eq_true]
    simpa using ih l

theorem findModulesAux_nil (fuel : Nat) : findModulesAux fuel [] = [] := by
  cases fuel with
  | zero => rfl
  | succ f => rfl

theorem findModulesAux_congr : ∀ (f₁ f₂ : Nat) (s : List Char),
    s.length ≤ f₁ → s.length ≤ f₂ → findModulesAux f₁ s = findModulesAux f₂ s := by
  intro f₁
  induction f₁ with
  | zero =>
    intro f₂ s h₁ _
    have hs : s = [] := List.length_eq_zero.mp (Nat.le_zero.mp h₁)
    subst hs
    rw [findModulesAux_nil, findModulesAux_nil]
  | succ f ih =>
    intro f₂ s h₁ h₂
    cases f₂ with
    | zero =>
      have hs : s = [] := List.length_eq_zero.mp (Nat.le_zero.mp h₂)
      subst hs
      rw [findModulesAux_nil, findModulesAux_nil]
    | succ f₂' =>
      cases s with
      | nil => rw [findModulesAux_nil, findModulesAux_nil]
      | cons c cs =>
        simp only [List.length_cons] at h₁ h₂
        simp only [findModulesAux]
        by_cases hp : isPrefixL NMN (c :: cs) = true
        · rw [if_pos hp, if_pos hp]
          cases hq : toLastQuote (((c :: cs).drop 17).takeWhile fun x => !(isPySpace x)) with
          | none => exact ih f₂' cs (by omega) (by omega)
          | some cap =>
            dsimp only
            by_cases hc : 1 ≤ cap.length
            · rw [if_pos hc, if_pos hc]
              congr 1
              apply ih
              · simp only [List.length_drop, List.length_cons]
                omega
              · simp only [List.length_drop, List.length_cons]
                omega
            · rw [if_neg hc, if_neg hc]
              exact ih f₂' cs (by omega) (by omega)
        · rw [if_neg hp, if_neg hp]
          exact ih f₂' cs (by omega) (by omega)

theorem findModules_unfold (s : List Char) :
    findModules s =
      if isPrefixL NMN s then
        match toLastQuote ((s.drop 17).takeWhile fun x => !(isPySpace x)) with
        | some cap =>
          if 1 ≤ cap.length then
            cap :: findModules ((s.drop 17).drop (cap.length + 1))
          else
            match s with
            | [] => []
            | _ :: cs => findModules cs
        | none =>
          match s with
          | [] => []
          | _ :: cs => findModules cs
      else
        match s with
        | [] => []
        | _ :: cs => findModules cs := by
  unfold findModules
  cases s with
  | nil =>
    rw [findModulesAux_nil]
    simp [isPrefixL, NMN]
  | cons c cs =>
    simp only [List.length_cons]
    simp only [findModulesAux]
    by_cases hp : isPrefixL NMN (c :: cs) = true
    · rw [if_pos hp, if_pos hp]
      cases hq : toLastQuote (((c :: cs).drop 17).takeWhile fun x => !(isPySpace x)) with
      | none => rfl
      | some cap =>
        dsimp only
        by_cases hc : 1 ≤ cap.length
        · rw [if_pos hc, if_pos hc]
          congr 1
          apply findModulesAux_congr
          · simp only [List.length_drop, List.length_cons]
            omega
          · exact Nat.le_refl _
        · rw [if_neg hc, if_neg hc]
    · rw [if_neg hp, if_neg hp]

theorem findModules_skip (c : Char) (cs : List Char)
    (h : isPrefixL NMN (c :: cs) = false) :
    findModules (c :: cs) = findModules cs := by
  rw [findModules_unfold, if_neg (by simp [h])]

theorem takeWhile_append_of_all (p : Char → Bool) :
    ∀ (m rest : List Char), (∀ c ∈ m, p c = true) →
      (m ++ rest).takeWhile p = m ++ rest.takeWhile p := by
  intro m
  induction m with
  | nil => intro rest _; rfl
  | cons a as ih =>
    intro rest h
    rw [List.cons_append, List.takeWhile_cons, if_pos (h a (by simp)),
        ih rest (fun c hc => h c (by simp [hc])), List.cons_append]

theorem toLastQuote_append_quote : ∀ (m : List Char), (∀ c ∈ m, (c == '\'') = false) →
    toLastQuote (m ++ ['\'']) = some m := by
  intro m
  induction m with
  | nil => intro _; rfl
  | cons a as ih =>
    intro h
    have hin := ih (fun c hc => h c (by simp [hc]))
    rw [List.cons_append]
    simp only [toLastQuote, hin]

theorem drop_append_cons : ∀ (m tail : List Char) (q : Char),
    (m ++ q :: tail).drop (m.length + 1) = tail := by
  intro m
  induction m with
  | nil => intro tail q; rfl
  | cons a as ih =>
    intro tail q
    rw [List.cons_append]
    simp only [List.length_cons]
    rw [List.drop_succ_cons]
    exact ih tail q

theorem findModules_mention (m tail : List Char)
    (hm : m ≠ [])
    (hgood : ∀ c ∈ m, isPySpace c = false ∧ (c == '\'') = false)
    (htail : tail = [] ∨ ∃ c t', tail = c :: t' ∧ isPySpace c = true) :
    findModules (NMN ++ (m ++ '\'' :: tail)) = m :: findModules tail := by
  have hdrop : (NMN ++ (m ++ '\'' :: tail)).drop 17 = m ++ '\'' :: tail := by
    rw [show (17 : Nat) = NMN.length from rfl, List.drop_left]
  have hrun : (m ++ '\'' :: tail).takeWhile (fun x => !(isPySpace x)) = m ++ ['\''] := by
    rw [takeWhile_append_of_all _ m ('\'' :: tail)
        (fun c hc => by rw [(hgood c hc).1]; rfl)]
    rw [List.takeWhile_cons, if_pos (by decide)]
    congr 1
    rcases htail with rfl | ⟨c, t', rfl, hc⟩
    · rfl
    · rw [List.takeWhile_cons, if_neg (by simp [hc])]
  have hq : toLastQuote (((NMN ++ (m ++ '\'' :: tail)).drop 17).takeWhile
      (fun x => !(isPySpace x))) = some m := by
    rw [hdrop, hrun]
    exact toLastQuote_append_quote m (fun c hc => (hgood c hc).2)
  have hlen : 1 ≤ m.length := by
    cases m with
    | nil => exact absurd rfl hm
    | cons a as => simp
  rw [findModules_unfold, if_pos (isPrefixL_self_append NMN _), hq]
  dsimp only
  rw [if_pos hlen, hdrop, drop_append_cons]

theorem mentionBlock_shape (mods : List String) :
    mentionBlock mods = [] ∨ ∃ t', mentionBlock mods = '\n' :: t' := by
  cases mods with
  | nil => exact Or.inl rfl
  | cons m rest => exact Or.inr ⟨_, rfl⟩

theorem containsSub_append_right (pat : List Char) :
    ∀ (l t : List Char), containsSub pat t = true → containsSub pat (l ++ t) = true := by
  intro l
  induction l with
  | nil => intro t h; exact h
  | cons c cs ih =>
    intro t h
    rw [List.cons_append]
    simp only [containsSub]
    rw [ih t h]
    simp

theorem findModules_mentionBlock : ∀ (mods : List String),
    (∀ m ∈ mods, goodModule m) →
    findModules (mentionBlock mods ++ "\nModuleNotFoundError".data) =
      mods.map String.data := by
  intro mods
  induction mods with
  | nil =>
    intro _
    simp only [mentionBlock, List.nil_append, List.map_nil]
    decide
  | cons m rest ih =>
    intro hgood
    obtain ⟨hm, hchars⟩ := hgood m (by simp)
    simp only [mentionBlock, List.cons_append, List.map_cons, List.append_assoc]
    rw [findModules_skip '\n'
        (NMN ++ (m.data ++ '\'' :: (mentionBlock rest ++ "\nModuleNotFoundError".data))) rfl]
    rw [findModules_mention m.data (mentionBlock rest ++ "\nModuleNotFoundError".data)
        hm
        (fun c hc => ⟨(hchars c hc).1, beq_eq_false_iff_ne.mpr (hchars c hc).2⟩)
        ?htail]
    · rw [ih (fun x hx => hgood x (by simp [hx]))]
    · rcases mentionBlock_shape rest with hmb | ⟨t', hmb⟩
      · rw [hmb, List.nil_append]
        exact Or.inr ⟨'\n', "ModuleNotFoundError".data, rfl, by decide⟩
      · rw [hmb, List.cons_append]
        exact Or.inr ⟨'\n', t' ++ "\nModuleNotFoundError".data, rfl, by decide⟩

/-- C1 (amended): `fix_module_not_found_error` attempts one `pip install`
per regex match occurrence, in match order, provided the literal
`ModuleNotFoundError` occurs in the report: for any report listing any
sequence of well-formed module names — duplicates included — the installed
list is exactly that sequence, so a module mentioned twice is installed
twice, not once, while the set of modules installed is the set mentioned. -/
theorem fix_module_installs_per_mention (mods : List String)
    (hgood : ∀ m ∈ mods, goodModule m) :
    fix_module_not_found_error
        (String.mk (mentionBlock mods ++ "\nModuleNotFoundError".data)) = mods := by
  unfold fix_module_not_found_error
  rw [if_pos (containsSub_append_right "ModuleNotFoundError".data
      (mentionBlock mods) "\nModuleNotFoundError".data (by decide))]
  rw [show (String.mk (mentionBlock mods ++ "\nModuleNotFoundError".data)).data =
      mentionBlock mods ++ "\nModuleNotFoundError".data from rfl]
  rw [findModules_mentionBlock mods hgood, List.map_map]
  have hmk : ((fun cap => String.mk cap) ∘ String.data) = id := funext fun s => rfl
  rw [hmk, List.map_id]

theorem fix_module_installs_per_mention_witness :
    fix_module_not_found_error
        (String.mk (mentionBlock ["foo", "foo", "bar"] ++ "\nModuleNotFoundError".data)) =
      ["foo", "foo", "bar"] :=
  fix_module_installs_per_mention ["foo", "foo", "bar"] (by decide)

/-- C1 (counterexample): a report mentioning module `foo` twice and `bar`
once.  The claim requires installation of `{foo, bar}` with each module
installed once regardless of duplicate mentions; the code installs one
occurrence per match, so `foo` is installed twice. -/
theorem fix_module_duplicate_mention_counterexample :
    fix_module_not_found_error
        "ModuleNotFoundError: No module named 'foo'\nNo module named 'foo'\nNo module named 'bar'" =
      ["foo", "foo", "bar"] ∧
    ¬((fix_module_not_found_error
        "ModuleNotFoundError: No module named 'foo'\nNo module named 'foo'\nNo module named 'bar'").count
          "foo" = 1 ∧
      (fix_module_not_found_error
        "ModuleNotFoundError: No module named 'foo'\nNo module named 'foo'\nNo module named 'bar'").count
          "bar" = 1) := by
  constructor
  · decide
  · decide
